import Mathlib

/-!
Verification of the QueryPath temporal-expression resolver.

The definitions below are a shallow embedding of the repository's Python
sources:

* `src/mcp/date_calculator.py` — `parse_reference_point`, `get_week_range`,
  `get_date_range`, `get_month_range`;
* `src/parsers/time_parser.py` — `parse_time` (with its regex
  `last\s+(\d+)\s+(day|hour|week|month|minute)s?` embedded as an explicit
  leftmost-match scanner);
* the pieces of `datetime` / `dateutil.relativedelta` / `calendar` that those
  functions use (proleptic Gregorian dates, `timedelta` day arithmetic,
  calendar-month addition with end-of-month clamping, `calendar.monthrange`).

Dates are year/month/day records.  Python's `datetime.date` restricts years to
1..9999; the model keeps the lower bound exactly (day arithmetic that would
go below 0001-01-01 raises `OverflowError` in Python and is `none` here) and
leaves years unbounded above.  Fallible operations return `Option`: `none`
stands for a raised Python exception at the corresponding call site.
-/

structure Date where
  year : Nat
  month : Nat
  day : Nat
deriving DecidableEq

/-- Gregorian leap-year test, as in `calendar.isleap`. -/
def isLeap (y : Nat) : Bool :=
  (y % 4 == 0 && y % 100 != 0) || y % 400 == 0

/-- `calendar.monthrange(y, m)[1]` for `m` in 1..12. -/
def daysInMonth (y m : Nat) : Nat :=
  if m = 2 then (if isLeap y then 29 else 28)
  else if m = 4 ∨ m = 6 ∨ m = 9 ∨ m = 11 then 30
  else 31

/-- Days in year `y` strictly before month `m` (month 1..12). -/
def daysBeforeMonth (y : Nat) : Nat → Nat
  | 0 => 0
  | 1 => 0
  | m + 2 => daysBeforeMonth y (m + 1) + daysInMonth y (m + 1)

/-- Days strictly before January 1 of year `y`, counted from 0001-01-01
(proleptic Gregorian), as in `datetime`'s `_days_before_year`. -/
def daysBeforeYear (y : Nat) : Nat :=
  365 * (y - 1) + ((y - 1) / 4 - (y - 1) / 100 + (y - 1) / 400)

/-- `datetime.date.toordinal`: 0001-01-01 is day 1. -/
def toOrdinal (d : Date) : Nat :=
  daysBeforeYear d.year + daysBeforeMonth d.year d.month + d.day

/-- `datetime.date.weekday`: Monday = 0 .. Sunday = 6. -/
def pyWeekday (d : Date) : Nat :=
  (toOrdinal d + 6) % 7

/-- A well-formed calendar date (year at least 1, as in `datetime.MINYEAR`). -/
def Valid (d : Date) : Prop :=
  1 ≤ d.year ∧ 1 ≤ d.month ∧ d.month ≤ 12 ∧ 1 ≤ d.day ∧
    d.day ≤ daysInMonth d.year d.month

instance (d : Date) : Decidable (Valid d) := by
  unfold Valid; infer_instance

/-- Calendar successor of a date. -/
def nextDay (d : Date) : Date :=
  if d.day < daysInMonth d.year d.month then ⟨d.year, d.month, d.day + 1⟩
  else if d.month < 12 then ⟨d.year, d.month + 1, 1⟩
  else ⟨d.year + 1, 1, 1⟩

/-- Calendar predecessor of a date; `none` at 0001-01-01 (where Python's
`date - timedelta(days=1)` raises `OverflowError`). -/
def prevDay (d : Date) : Option Date :=
  if 1 < d.day then some ⟨d.year, d.month, d.day - 1⟩
  else if 1 < d.month then some ⟨d.year, d.month - 1, daysInMonth d.year (d.month - 1)⟩
  else if 1 < d.year then some ⟨d.year - 1, 12, 31⟩
  else none

def addDaysNat : Date → Nat → Date
  | d, 0 => d
  | d, n + 1 => addDaysNat (nextDay d) n

def subDaysNat : Date → Nat → Option Date
  | d, 0 => some d
  | d, n + 1 => (prevDay d).bind (fun d2 => subDaysNat d2 n)

/-- `date + timedelta(days = n)` for a signed `n`. -/
def addDays (d : Date) (n : Int) : Option Date :=
  if 0 ≤ n then some (addDaysNat d n.toNat)
  else subDaysNat d (-n).toNat

/-- `date + relativedelta(months = n)`: calendar-month addition, clamping the
day to the target month's length; `none` when the target year is below 1
(Python raises `ValueError`). -/
def addMonths (d : Date) (n : Int) : Option Date :=
  let tm : Int := (d.year : Int) * 12 + (d.month : Int) - 1 + n
  let y : Int := tm / 12
  let m : Nat := (tm % 12).toNat + 1
  if 1 ≤ y then some ⟨y.toNat, m, min d.day (daysInMonth y.toNat m)⟩
  else none

/-- `date + relativedelta(years = n)` (clamps Feb 29 to Feb 28). -/
def addYears (d : Date) (n : Int) : Option Date :=
  let y : Int := (d.year : Int) + n
  if 1 ≤ y then some ⟨y.toNat, d.month, min d.day (daysInMonth y.toNat d.month)⟩
  else none

/-- `str.lower()` (ASCII, which is all the sources use). -/
def strLower (s : String) : String := String.mk (s.data.map Char.toLower)

/-- The `month_names` dictionary of `date_calculator.py` (used both by
`parse_reference_point` and `get_month_range`). -/
def monthNames : List (String × Nat) :=
  [("january", 1), ("jan", 1), ("february", 2), ("feb", 2), ("march", 3), ("mar", 3),
   ("april", 4), ("apr", 4), ("may", 5), ("june", 6), ("jun", 6), ("july", 7), ("jul", 7),
   ("august", 8), ("aug", 8), ("september", 9), ("sep", 9), ("october", 10), ("oct", 10),
   ("november", 11), ("nov", 11), ("december", 12), ("dec", 12)]

/-- The `weekday_names` dictionary of `parse_reference_point`. -/
def weekdayNames : List (String × Nat) :=
  [("monday", 0), ("tuesday", 1), ("wednesday", 2), ("thursday", 3),
   ("friday", 4), ("saturday", 5), ("sunday", 6)]

def pySpace (c : Char) : Bool :=
  c == ' ' || c == '\t' || c == '\n' || c == '\r' || c == '\x0b' || c == '\x0c'

def digitVal (c : Char) : Nat := c.toNat - '0'.toNat

def digitsToNatAux : List Char → Nat → Option Nat
  | [], acc => some acc
  | c :: rest, acc =>
    if c.isDigit then digitsToNatAux rest (acc * 10 + digitVal c) else none

def digitsToNat : List Char → Option Nat
  | [] => none
  | c :: rest => digitsToNatAux (c :: rest) 0

/-- Python's `int(s)` on a string: optional surrounding whitespace, optional
sign, then a nonempty digit run; anything else raises `ValueError` (`none`). -/
def pyInt (s : String) : Option Int :=
  let cs := s.data.dropWhile pySpace
  let cs := (cs.reverse.dropWhile pySpace).reverse
  match cs with
  | '-' :: rest => (digitsToNat rest).map (fun n => -(n : Int))
  | '+' :: rest => (digitsToNat rest).map (fun n => (n : Int))
  | rest => (digitsToNat rest).map (fun n => (n : Int))

/-- `date_calculator.parse_reference_point(reference, offset_value, offset_unit)`.
The Python function reads `datetime.date.today()` once at its top; that single
clock reading is the explicit `today` argument here.  `none` models an
exception escaping the function (`OverflowError`/`ValueError` from date
arithmetic); the `specific_day_of_month` branch catches its own exceptions and
falls back to `today`, exactly as the source's `try/except` does. -/
def parse_reference_point (reference : String) (offsetValue : Int)
    (offsetUnit : String) (today : Date) : Option Date :=
  if reference = "today" then
    if offsetUnit = "days" then addDays today offsetValue
    else if offsetUnit = "weeks" then addDays today (offsetValue * 7)
    else if offsetUnit = "months" then addMonths today offsetValue
    else if offsetUnit = "years" then addYears today offsetValue
    else some today
  else if reference = "start_of_week" then
    (addDays today (-(pyWeekday today : Int))).bind (fun base =>
      if offsetUnit = "weeks" then addDays base (offsetValue * 7)
      else if offsetUnit = "this" then some base
      else some base)
  else if reference = "start_of_month" then
    let base : Date := { today with day := 1 }
    if offsetUnit = "months" then addMonths base offsetValue
    else some base
  else if reference = "start_of_year" then
    let base : Date := { today with month := 1, day := 1 }
    if offsetUnit = "years" then addYears base offsetValue
    else some base
  else if reference = "specific_month" then
    let monthNum := (monthNames.lookup (strLower offsetUnit)).getD today.month
    let year : Int := (today.year : Int) + offsetValue
    if 1 ≤ year then some ⟨year.toNat, monthNum, 1⟩ else none
  else if reference = "specific_weekday" then
    let target : Nat := (weekdayNames.lookup (strLower offsetUnit)).getD 0
    let cur : Nat := pyWeekday today
    if offsetValue < 0 then
      let db : Int := (((cur : Int) - (target : Int)) % 7)
      let db : Int := if db = 0 then 7 else db
      addDays today (-db)
    else
      let df : Int := (((target : Int) - (cur : Int)) % 7)
      let df : Int := if df = 0 then 7 else df
      addDays today df
  else if reference = "specific_day_of_month" then
    match pyInt offsetUnit with
    | none => some today
    | some dayNumber =>
      match addMonths { today with day := 1 } offsetValue with
      | none => some today
      | some targetMonth =>
        let maxDay : Nat := daysInMonth targetMonth.year targetMonth.month
        let dn : Int := if dayNumber > (maxDay : Int) then (maxDay : Int) else dayNumber
        if 1 ≤ dn then some { targetMonth with day := dn.toNat }
        else some today
  else some today

/-- `date_calculator.get_week_range(week_offset)`; `today` is the function's
single `datetime.date.today()` reading.  `none` models the `except` branch
(the error dictionary). -/
def get_week_range (weekOffset : Int) (today : Date) : Option (Date × Date) :=
  (addDays today (-(pyWeekday today : Int))).bind (fun startOfCurrentWeek =>
    (addDays startOfCurrentWeek (weekOffset * 7)).bind (fun startDate =>
      (addDays startDate 6).map (fun endDate => (startDate, endDate))))

/-- `date_calculator.get_date_range(...)`.  The Python body calls
`parse_reference_point` twice, and each call performs its own
`datetime.date.today()` reading; `today1` and `today2` are those two clock
readings.  `none` models the `except` branch (the error dictionary). -/
def get_date_range (today1 today2 : Date)
    (startReference : String) (startOffsetValue : Int) (startOffsetUnit : String)
    (endReference : String) (endOffsetValue : Int) (endOffsetUnit : String) :
    Option (Date × Date) :=
  (parse_reference_point startReference startOffsetValue startOffsetUnit today1).bind
    (fun startDate =>
  (parse_reference_point endReference endOffsetValue endOffsetUnit today2).bind
    (fun endDate =>
  if startReference = "start_of_month" ∧ endReference = "start_of_month" then
    (addMonths endDate 1).bind (fun e1 =>
      (addDays e1 (-1)).map (fun e2 => (startDate, e2)))
  else if startReference = "start_of_week" ∧ endReference = "start_of_week" then
    (addDays endDate 6).map (fun e2 => (startDate, e2))
  else if startReference = "specific_month" ∧ endReference = "specific_month" then
    if startOffsetUnit ≠ endOffsetUnit then
      some (startDate, { endDate with day := daysInMonth endDate.year endDate.month })
    else some (startDate, endDate)
  else some (startDate, endDate)))

/-- `date_calculator.get_month_range(month_name, year_offset)`; `today` is the
function's `datetime.date.today()` reading.  The catch-all `except` branch
(reached when `datetime.date(year, ...)` raises for a year below 1) is the
second error case. -/
def get_month_range (monthName : String) (yearOffset : Int) (today : Date) :
    Except String (Date × Date) :=
  match monthNames.lookup (strLower monthName) with
  | none => Except.error ("Invalid month name: " ++ monthName)
  | some monthNum =>
    let year : Int := (today.year : Int) + yearOffset
    if 1 ≤ year then
      Except.ok (⟨year.toNat, monthNum, 1⟩,
                 ⟨year.toNat, monthNum, daysInMonth year.toNat monthNum⟩)
    else Except.error "Error: year is out of range"

/-- Matches a literal character sequence at the head of the input, returning
the rest. -/
def matchLit : List Char → List Char → Option (List Char)
  | [], s => some s
  | _ :: _, [] => none
  | c :: cs, x :: xs => if x = c then matchLit cs xs else none

/-- One-or-more whitespace characters (the regex fragment of one backslash-s
followed by a plus): requires at least one, then consumes the rest greedily. -/
def dropSpacesOne (l : List Char) : Option (List Char) :=
  match l with
  | c :: rest => if pySpace c then some (rest.dropWhile pySpace) else none
  | [] => none

/-- Greedily reads a decimal digit run, accumulating its value. -/
def readDigits : List Char → Nat → Nat × List Char
  | [], acc => (acc, [])
  | c :: rest, acc =>
    if c.isDigit then readDigits rest (acc * 10 + digitVal c)
    else (acc, c :: rest)

/-- The ordered alternation `(day|hour|week|month|minute)` of the time regex;
the first literal that matches wins (the trailing optional `s` of the regex
never affects the captured groups). -/
def matchUnit (s : List Char) : Option String :=
  match matchLit ['d', 'a', 'y'] s with
  | some _ => some "day"
  | none =>
    match matchLit ['h', 'o', 'u', 'r'] s with
    | some _ => some "hour"
    | none =>
      match matchLit ['w', 'e', 'e', 'k'] s with
      | some _ => some "week"
      | none =>
        match matchLit ['m', 'o', 'n', 't', 'h'] s with
        | some _ => some "month"
        | none =>
          match matchLit ['m', 'i', 'n', 'u', 't', 'e'] s with
          | some _ => some "minute"
          | none => none

/-- Tries to match the body of the regex at the current position: the literal
`last`, whitespace, a digit run (group 1), whitespace, a unit word (group 2). -/
def matchTimePatternAt (s : List Char) : Option (Nat × String) :=
  (matchLit ['l', 'a', 's', 't'] s).bind (fun s1 =>
    (dropSpacesOne s1).bind (fun s2 =>
      match s2 with
      | c :: rest =>
        if c.isDigit then
          let qs := readDigits rest (digitVal c)
          (dropSpacesOne qs.2).bind (fun s4 =>
            (matchUnit s4).map (fun u => (qs.1, u)))
        else none
      | [] => none))

/-- `re.search` of the pattern `last\s+(\d+)\s+(day|hour|week|month|minute)s?`:
the leftmost position at which the pattern matches, returning the two captured
groups (quantity and unit). -/
def findTimePattern : List Char → Option (Nat × String)
  | [] => none
  | c :: rest =>
    match matchTimePatternAt (c :: rest) with
    | some r => some r
    | none => findTimePattern rest

/-- The result dictionary of `time_parser.parse_time`. -/
structure TimeDetails where
  is_range : Bool
  time : Option Date
  time_range : Option (Date × Date)
deriving DecidableEq

/-- `time_parser.parse_time(query)`; `now` is the function's `datetime.now()`
reading (only its calendar date matters for the output).  `none` models an
uncaught `OverflowError` from the `timedelta` subtraction. -/
def parse_time (query : String) (now : Date) : Option TimeDetails :=
  match findTimePattern query.data with
  | none => some ⟨false, none, none⟩
  | some (timeQuantity, timeUnit) =>
    if timeUnit = "day" ∨ timeUnit = "week" ∨ timeUnit = "month" then
      let deltaDays : Nat :=
        if timeUnit = "day" then timeQuantity
        else if timeUnit = "week" then timeQuantity * 7
        else timeQuantity * 30
      (addDays now (-(deltaDays : Int))).map
        (fun calculatedStartDate => ⟨true, none, some (calculatedStartDate, now)⟩)
    else some ⟨false, some now, none⟩

/-- The end-widening step of `get_date_range`, as a function of the reference
and unit arguments and the independently evaluated end date only (extracted
for the dependency analysis of the range evaluation). -/
def widenEnd (sr er su eu : String) (ed : Date) : Option Date :=
  if sr = "start_of_month" ∧ er = "start_of_month" then
    (addMonths ed 1).bind (fun e1 => addDays e1 (-1))
  else if sr = "start_of_week" ∧ er = "start_of_week" then addDays ed 6
  else if sr = "specific_month" ∧ er = "specific_month" then
    if su ≠ eu then some { ed with day := daysInMonth ed.year ed.month }
    else some ed
  else some ed

-- Sanity checks of the calendar model on concrete values.
example : toOrdinal ⟨1, 1, 1⟩ = 1 := by decide
example : pyWeekday ⟨2025, 7, 19⟩ = 5 := by decide
example : daysInMonth 2024 2 = 29 := by decide
example : daysInMonth 2025 2 = 28 := by decide
example : addDays ⟨2025, 3, 1⟩ (-1) = some ⟨2025, 2, 28⟩ := by decide
example : addMonths ⟨2025, 1, 31⟩ 1 = some ⟨2025, 2, 28⟩ := by decide
example : addMonths ⟨2025, 3, 31⟩ (-1) = some ⟨2025, 2, 28⟩ := by decide
example : addYears ⟨2024, 2, 29⟩ 1 = some ⟨2025, 2, 28⟩ := by decide

-- Sanity checks against the behavior of the Python source.
example : parse_reference_point "today" (-1) "days" ⟨2025, 7, 19⟩ = some ⟨2025, 7, 18⟩ := by decide
example : parse_reference_point "specific_weekday" (-1) "monday" ⟨2025, 7, 19⟩ = some ⟨2025, 7, 14⟩ := by decide
example : parse_reference_point "specific_day_of_month" 0 "3" ⟨2025, 7, 19⟩ = some ⟨2025, 7, 3⟩ := by decide
example : parse_reference_point "specific_day_of_month" (-1) "31" ⟨2025, 7, 19⟩ = some ⟨2025, 6, 30⟩ := by decide
example : parse_reference_point "specific_month" 0 "smarch" ⟨2025, 7, 19⟩ = some ⟨2025, 7, 1⟩ := by decide
example : get_week_range (-1) ⟨2025, 7, 19⟩ = some (⟨2025, 7, 7⟩, ⟨2025, 7, 13⟩) := by decide
example : get_date_range ⟨2025, 7, 19⟩ ⟨2025, 7, 19⟩ "specific_month" (-1) "march" "specific_month" (-1) "august" =
    some (⟨2024, 3, 1⟩, ⟨2024, 8, 31⟩) := by decide
example : get_month_range "feb" 0 ⟨2024, 7, 19⟩ = Except.ok (⟨2024, 2, 1⟩, ⟨2024, 2, 29⟩) := by rfl
example : pyInt "31" = some 31 := by decide
example : pyInt "abc" = none := by decide

-- Sanity checks of the classifier model.
example : findTimePattern ("get cases from last 3 days".data) = some (3, "day") := by decide
example : findTimePattern ("hello world".data) = none := by decide
example : findTimePattern ("last 2 months ago".data) = some (2, "month") := by decide
example : parse_time "last 1 month" ⟨2025, 3, 31⟩ =
    some ⟨true, none, some (⟨2025, 3, 1⟩, ⟨2025, 3, 31⟩)⟩ := by decide
example : parse_time "last 5 hours" ⟨2025, 3, 31⟩ =
    some ⟨false, some ⟨2025, 3, 31⟩, none⟩ := by decide
example : parse_time "yesterday" ⟨2025, 3, 31⟩ = some ⟨false, none, none⟩ := by decide

theorem daysBeforeMonth_succ (y m : Nat) (h : 1 ≤ m) :
    daysBeforeMonth y (m + 1) = daysBeforeMonth y m + daysInMonth y m := by
  obtain ⟨k, rfl⟩ : ∃ k, m = k + 1 := ⟨m - 1, by omega⟩
  rfl

theorem one_le_daysInMonth (y m : Nat) : 1 ≤ daysInMonth y m := by
  unfold daysInMonth
  split_ifs <;> omega

theorem daysInMonth_twelve (y : Nat) : daysInMonth y 12 = 31 := by
  rfl

theorem daysBeforeYear_succ (y : Nat) (hy : 1 ≤ y) :
    daysBeforeYear (y + 1) = daysBeforeYear y + 365 + (if isLeap y then 1 else 0) := by
  obtain ⟨a, rfl⟩ : ∃ a, y = a + 1 := ⟨y - 1, by omega⟩
  have hiff : isLeap (a + 1) = true ↔
      (((a + 1) % 4 = 0 ∧ (a + 1) % 100 ≠ 0) ∨ (a + 1) % 400 = 0) := by
    simp [isLeap]
  have hleap : (if isLeap (a + 1) then (1 : Nat) else 0) =
      (if (((a + 1) % 4 = 0 ∧ (a + 1) % 100 ≠ 0) ∨ (a + 1) % 400 = 0) then 1 else 0) := by
    by_cases hb : isLeap (a + 1) = true
    · rw [if_pos hb, if_pos (hiff.mp hb)]
    · rw [if_neg hb, if_neg (fun hc => hb (hiff.mpr hc))]
  have h4 := Nat.succ_div a 4
  have h100 := Nat.succ_div a 100
  have h400 := Nat.succ_div a 400
  have hb1 : a / 100 ≤ a / 4 := Nat.div_le_div_left (by norm_num) (by norm_num)
  have hb2 : a / 400 ≤ a / 100 := Nat.div_le_div_left (by norm_num) (by norm_num)
  unfold daysBeforeYear
  rw [hleap]
  simp only [Nat.add_sub_cancel]
  rw [h4, h100, h400]
  split_ifs <;> omega

theorem daysBeforeMonth_twelve (y : Nat) :
    daysBeforeMonth y 12 + daysInMonth y 12 = 365 + (if isLeap y then 1 else 0) := by
  cases hb : isLeap y <;>
    simp [daysBeforeMonth, daysInMonth, hb]

theorem toOrdinal_nextDay (d : Date) (h : Valid d) :
    toOrdinal (nextDay d) = toOrdinal d + 1 := by
  obtain ⟨y, m, dd⟩ := d
  obtain ⟨hy, hm1, hm2, hd1, hd2⟩ := h
  dsimp only at hy hm1 hm2 hd1 hd2
  unfold nextDay
  dsimp only
  split_ifs with h1 h2
  · unfold toOrdinal
    dsimp only
    omega
  · unfold toOrdinal
    dsimp only
    have hstep := daysBeforeMonth_succ y m hm1
    omega
  · have hm : m = 12 := by omega
    subst hm
    have h31 : dd = 31 := by
      have h12 := daysInMonth_twelve y
      omega
    subst h31
    unfold toOrdinal
    dsimp only
    have hy2 := daysBeforeYear_succ y hy
    have hm12 := daysBeforeMonth_twelve y
    have hb1 : daysBeforeMonth (y + 1) 1 = 0 := rfl
    have h12 := daysInMonth_twelve y
    cases hL : isLeap y <;> simp [hL] at hy2 hm12 <;> omega

theorem valid_nextDay (d : Date) (h : Valid d) : Valid (nextDay d) := by
  obtain ⟨y, m, dd⟩ := d
  obtain ⟨hy, hm1, hm2, hd1, hd2⟩ := h
  dsimp only at hy hm1 hm2 hd1 hd2
  unfold nextDay
  dsimp only
  split_ifs with h1 h2
  · exact ⟨hy, hm1, hm2, by dsimp only; omega, by dsimp only; omega⟩
  · exact ⟨hy, by dsimp only; omega, by dsimp only; omega, by dsimp only; omega,
      by dsimp only; exact one_le_daysInMonth y (m + 1)⟩
  · exact ⟨by dsimp only; omega, by dsimp only; omega, by dsimp only; omega,
      by dsimp only; omega, by dsimp only; exact one_le_daysInMonth (y + 1) 1⟩

theorem prevDay_spec (d : Date) (h : Valid d) (d2 : Date) (hp : prevDay d = some d2) :
    Valid d2 ∧ toOrdinal d2 + 1 = toOrdinal d := by
  obtain ⟨y, m, dd⟩ := d
  obtain ⟨hy, hm1, hm2, hd1, hd2⟩ := h
  dsimp only at hy hm1 hm2 hd1 hd2
  unfold prevDay at hp
  dsimp only at hp
  split_ifs at hp with h1 h2 h3
  · obtain rfl : (⟨y, m, dd - 1⟩ : Date) = d2 := Option.some.inj hp
    refine ⟨⟨hy, hm1, hm2, by dsimp only; omega, by dsimp only; omega⟩, ?_⟩
    unfold toOrdinal
    dsimp only
    omega
  · obtain rfl : (⟨y, m - 1, daysInMonth y (m - 1)⟩ : Date) = d2 := Option.some.inj hp
    obtain ⟨k, rfl⟩ : ∃ k, m = k + 1 := ⟨m - 1, by omega⟩
    have hk1 : 1 ≤ k := by omega
    refine ⟨⟨hy, by dsimp only; omega, by dsimp only; omega,
        by dsimp only; simp only [Nat.add_sub_cancel]; exact one_le_daysInMonth y k,
        by dsimp only; exact Nat.le_refl _⟩, ?_⟩
    have hstep := daysBeforeMonth_succ y k hk1
    unfold toOrdinal
    dsimp only
    simp only [Nat.add_sub_cancel]
    omega
  · obtain rfl : (⟨y - 1, 12, 31⟩ : Date) = d2 := Option.some.inj hp
    have hmm : m = 1 := by omega
    subst hmm
    have hdd : dd = 1 := by omega
    subst hdd
    obtain ⟨z, rfl⟩ : ∃ z, y = z + 1 := ⟨y - 1, by omega⟩
    have hz1 : 1 ≤ z := by omega
    refine ⟨⟨by dsimp only; omega, by dsimp only; omega, by dsimp only; omega,
        by dsimp only; omega, by dsimp only; simp [Nat.add_sub_cancel, daysInMonth_twelve]⟩, ?_⟩
    have hy2 := daysBeforeYear_succ z hz1
    have hm12 := daysBeforeMonth_twelve z
    have h12 := daysInMonth_twelve z
    have hb0 : daysBeforeMonth (z + 1) 1 = 0 := rfl
    unfold toOrdinal
    dsimp only
    simp only [Nat.add_sub_cancel]
    cases hL : isLeap z <;> simp [hL] at hy2 hm12 <;> omega

theorem prevDay_isSome (d : Date) (h : Valid d) (h2 : 2 ≤ toOrdinal d) :
    ∃ d2, prevDay d = some d2 := by
  obtain ⟨y, m, dd⟩ := d
  obtain ⟨hy, hm1, hm2, hd1, hd2⟩ := h
  dsimp only at hy hm1 hm2 hd1 hd2
  unfold prevDay
  dsimp only
  split_ifs with g1 g2 g3
  · exact ⟨_, rfl⟩
  · exact ⟨_, rfl⟩
  · exact ⟨_, rfl⟩
  · exfalso
    have hy1 : y = 1 := by omega
    have hmm : m = 1 := by omega
    have hdd : dd = 1 := by omega
    subst hy1; subst hmm; subst hdd
    have hone : toOrdinal ⟨1, 1, 1⟩ = 1 := rfl
    omega

theorem addDaysNat_spec (n : Nat) (d : Date) (h : Valid d) :
    Valid (addDaysNat d n) ∧ toOrdinal (addDaysNat d n) = toOrdinal d + n := by
  induction n generalizing d with
  | zero => exact ⟨h, rfl⟩
  | succ k ih =>
    have hv := valid_nextDay d h
    have ho := toOrdinal_nextDay d h
    have hrec := ih (nextDay d) hv
    unfold addDaysNat
    exact ⟨hrec.1, by rw [hrec.2, ho]; omega⟩

theorem subDaysNat_spec (n : Nat) (d : Date) (h : Valid d) (d2 : Date)
    (hs : subDaysNat d n = some d2) :
    Valid d2 ∧ toOrdinal d2 + n = toOrdinal d := by
  induction n generalizing d with
  | zero =>
    obtain rfl : d = d2 := Option.some.inj hs
    exact ⟨h, rfl⟩
  | succ k ih =>
    unfold subDaysNat at hs
    obtain ⟨d1, hd1, hrest⟩ := Option.bind_eq_some.mp hs
    have hp := prevDay_spec d h d1 hd1
    have hrec := ih d1 hp.1 hrest
    exact ⟨hrec.1, by omega⟩

theorem subDaysNat_isSome (n : Nat) (d : Date) (h : Valid d) (hb : n < toOrdinal d) :
    ∃ d2, subDaysNat d n = some d2 := by
  induction n generalizing d with
  | zero => exact ⟨d, rfl⟩
  | succ k ih =>
    obtain ⟨d1, hd1⟩ := prevDay_isSome d h (by omega)
    have hp := prevDay_spec d h d1 hd1
    obtain ⟨d2, hd2⟩ := ih d1 hp.1 (by omega)
    exact ⟨d2, by unfold subDaysNat; rw [hd1]; exact hd2⟩

/-- Success specification of `timedelta` day addition: on a valid date a
successful result is valid and sits exactly `n` days away. -/
theorem addDays_spec (d : Date) (n : Int) (h : Valid d) (r : Date)
    (hr : addDays d n = some r) :
    Valid r ∧ (toOrdinal r : Int) = (toOrdinal d : Int) + n := by
  unfold addDays at hr
  split_ifs at hr with h0
  · obtain rfl : addDaysNat d n.toNat = r := Option.some.inj hr
    have := addDaysNat_spec n.toNat d h
    exact ⟨this.1, by omega⟩
  · have := subDaysNat_spec (-n).toNat d h r hr
    exact ⟨this.1, by omega⟩

/-- `timedelta` day addition succeeds whenever the target stays at or after
0001-01-01 (otherwise Python raises `OverflowError`). -/
theorem addDays_isSome (d : Date) (n : Int) (h : Valid d)
    (hb : 0 < (toOrdinal d : Int) + n) : ∃ r, addDays d n = some r := by
  unfold addDays
  split_ifs with h0
  · exact ⟨_, rfl⟩
  · exact subDaysNat_isSome (-n).toNat d h (by omega)

/-- C1: resolving a `specific_weekday` reference with a negative offset value
(direction "last") returns a date strictly before the base date, and with a
nonnegative offset value (direction "next") strictly after it, at a distance
of 1 to 7 days in either case; when the target weekday equals the base date's
weekday the distance is exactly 7 days (never 0). -/
theorem specific_weekday_nonzero_distance (today : Date) (hV : Valid today)
    (h8 : 7 < toOrdinal today) (w : String) (tw : Nat)
    (hw : weekdayNames.lookup (strLower w) = some tw) (v : Int) :
    (parse_reference_point "specific_weekday" v w today).isSome = true ∧
    (∀ r, parse_reference_point "specific_weekday" v w today = some r →
      (v < 0 → toOrdinal r < toOrdinal today ∧
        1 ≤ toOrdinal today - toOrdinal r ∧ toOrdinal today - toOrdinal r ≤ 7 ∧
        (tw = pyWeekday today → toOrdinal today - toOrdinal r = 7)) ∧
      (0 ≤ v → toOrdinal today < toOrdinal r ∧
        1 ≤ toOrdinal r - toOrdinal today ∧ toOrdinal r - toOrdinal today ≤ 7 ∧
        (tw = pyWeekday today → toOrdinal r - toOrdinal today = 7))) := by
  have hps : parse_reference_point "specific_weekday" v w today =
      if v < 0 then
        addDays today (-(if (((pyWeekday today : Int) - (tw : Int)) % 7) = 0 then 7
            else (((pyWeekday today : Int) - (tw : Int)) % 7)))
      else
        addDays today (if (((tw : Int) - (pyWeekday today : Int)) % 7) = 0 then 7
            else (((tw : Int) - (pyWeekday today : Int)) % 7)) := by
    simp [parse_reference_point, hw]
  by_cases hv : v < 0
  · rw [if_pos hv] at hps
    have hb1 : 0 ≤ (((pyWeekday today : Int) - (tw : Int)) % 7) :=
      Int.emod_nonneg _ (by norm_num)
    have hb2 : (((pyWeekday today : Int) - (tw : Int)) % 7) < 7 :=
      Int.emod_lt_of_pos _ (by norm_num)
    by_cases hz : (((pyWeekday today : Int) - (tw : Int)) % 7) = 0
    · rw [if_pos hz] at hps
      obtain ⟨r, hr⟩ := addDays_isSome today (-7) hV (by omega)
      have hspec := addDays_spec today (-7) hV r hr
      refine ⟨by rw [hps, hr]; rfl, ?_⟩
      intro r2 hr2
      rw [hps, hr] at hr2
      obtain rfl : r = r2 := Option.some.inj hr2
      exact ⟨fun _ => ⟨by omega, by omega, by omega, fun _ => by omega⟩,
        fun h0 => absurd h0 (by omega)⟩
    · rw [if_neg hz] at hps
      obtain ⟨r, hr⟩ := addDays_isSome today
        (-((((pyWeekday today : Int)) - (tw : Int)) % 7)) hV (by omega)
      have hspec := addDays_spec today _ hV r hr
      refine ⟨by rw [hps, hr]; rfl, ?_⟩
      intro r2 hr2
      rw [hps, hr] at hr2
      obtain rfl : r = r2 := Option.some.inj hr2
      refine ⟨fun _ => ⟨by omega, by omega, by omega, ?_⟩, fun h0 => absurd h0 (by omega)⟩
      intro htie
      exact absurd (by omega : (((pyWeekday today : Int) - (tw : Int)) % 7) = 0) hz
  · rw [if_neg hv] at hps
    have hb1 : 0 ≤ (((tw : Int) - (pyWeekday today : Int)) % 7) :=
      Int.emod_nonneg _ (by norm_num)
    have hb2 : (((tw : Int) - (pyWeekday today : Int)) % 7) < 7 :=
      Int.emod_lt_of_pos _ (by norm_num)
    by_cases hz : (((tw : Int) - (pyWeekday today : Int)) % 7) = 0
    · rw [if_pos hz] at hps
      obtain ⟨r, hr⟩ := addDays_isSome today 7 hV (by omega)
      have hspec := addDays_spec today 7 hV r hr
      refine ⟨by rw [hps, hr]; rfl, ?_⟩
      intro r2 hr2
      rw [hps, hr] at hr2
      obtain rfl : r = r2 := Option.some.inj hr2
      exact ⟨fun h0 => absurd h0 (by omega),
        fun _ => ⟨by omega, by omega, by omega, fun _ => by omega⟩⟩
    · rw [if_neg hz] at hps
      obtain ⟨r, hr⟩ := addDays_isSome today
        ((((tw : Int) - (pyWeekday today : Int)) % 7)) hV (by omega)
      have hspec := addDays_spec today _ hV r hr
      refine ⟨by rw [hps, hr]; rfl, ?_⟩
      intro r2 hr2
      rw [hps, hr] at hr2
      obtain rfl : r = r2 := Option.some.inj hr2
      refine ⟨fun h0 => absurd h0 (by omega), fun _ => ⟨by omega, by omega, by omega, ?_⟩⟩
      intro htie
      exact absurd (by omega : (((tw : Int) - (pyWeekday today : Int)) % 7) = 0) hz

/-- Witness for C1: with today = Saturday 2025-07-19 and target weekday
"saturday" (the tie case), direction "last" resolves, and the resolved date
2025-07-12 is exactly 7 days in the past. -/
theorem specific_weekday_nonzero_distance_witness :
    (parse_reference_point "specific_weekday" (-1) "saturday" ⟨2025, 7, 19⟩).isSome = true ∧
    toOrdinal ⟨2025, 7, 12⟩ < toOrdinal ⟨2025, 7, 19⟩ ∧
    toOrdinal ⟨2025, 7, 19⟩ - toOrdinal ⟨2025, 7, 12⟩ = 7 := by
  have h := specific_weekday_nonzero_distance ⟨2025, 7, 19⟩ (by decide) (by decide)
    "saturday" 5 (by decide) (-1)
  exact ⟨h.1, ((h.2 ⟨2025, 7, 12⟩ (by decide)).1 (by decide)).1,
    ((h.2 ⟨2025, 7, 12⟩ (by decide)).1 (by decide)).2.2.2 (by decide)⟩

/-- C3: for every integer week offset and every today, a successfully computed
week range is Monday-to-Sunday: the start date is a Monday (weekday 0) and the
end date is exactly 6 days after the start (7 days inclusive), regardless of
the offset value. -/
theorem week_range_monday_to_sunday (today : Date) (hV : Valid today) (k : Int)
    (s e : Date) (h : get_week_range k today = some (s, e)) :
    pyWeekday s = 0 ∧ toOrdinal e = toOrdinal s + 6 := by
  unfold get_week_range at h
  obtain ⟨w0, hw0, h1⟩ := Option.bind_eq_some.mp h
  obtain ⟨s1, hs1, h2⟩ := Option.bind_eq_some.mp h1
  obtain ⟨e1, he1, heq⟩ := Option.map_eq_some'.mp h2
  simp only [Prod.mk.injEq] at heq
  obtain ⟨rfl, rfl⟩ := heq
  have hspec0 := addDays_spec today (-(pyWeekday today : Int)) hV w0 hw0
  have hspec1 := addDays_spec w0 (k * 7) hspec0.1 s1 hs1
  have hspec2 := addDays_spec s1 6 hspec1.1 e1 he1
  have hpw : pyWeekday today = (toOrdinal today + 6) % 7 := rfl
  have hgoal : pyWeekday s1 = (toOrdinal s1 + 6) % 7 := rfl
  constructor
  · rw [hgoal]
    omega
  · omega

/-- Witness for C3 at the spec's scenario: today = 2025-07-19, offset -1
("last week") gives the range 2025-07-07 (a Monday) to 2025-07-13. -/
theorem week_range_monday_to_sunday_witness :
    pyWeekday ⟨2025, 7, 7⟩ = 0 ∧ toOrdinal ⟨2025, 7, 13⟩ = toOrdinal ⟨2025, 7, 7⟩ + 6 := by
  exact week_range_monday_to_sunday ⟨2025, 7, 19⟩ (by decide) (-1) ⟨2025, 7, 7⟩ ⟨2025, 7, 13⟩
    (by decide)

/-- Branch lemma: `parse_reference_point` on the literal reference
`"specific_day_of_month"` reduces to the day-clamping branch. -/
theorem parse_reference_point_day_branch (off : Int) (tok : String) (today : Date) :
    parse_reference_point "specific_day_of_month" off tok today =
      (match pyInt tok with
       | none => some today
       | some dayNumber =>
         match addMonths { today with day := 1 } off with
         | none => some today
         | some targetMonth =>
           let maxDay : Nat := daysInMonth targetMonth.year targetMonth.month
           let dn : Int := if dayNumber > (maxDay : Int) then (maxDay : Int) else dayNumber
           if 1 ≤ dn then some { targetMonth with day := dn.toNat } else some today) := by
  rfl

/-- C4: a `specific_day_of_month` reference with a parseable positive day
number clamps that number to the last valid day of the target month (the
month `off` calendar months after the current one): the resolved date lives
in the target month with day `min requested (daysInMonth)`, never overflowing
into the next month. -/
theorem specific_day_of_month_clamps (today : Date) (off : Int) (tok : String)
    (dn : Int) (ht : pyInt tok = some dn) (h1 : 1 ≤ dn) (tm : Date)
    (hm : addMonths { today with day := 1 } off = some tm) :
    parse_reference_point "specific_day_of_month" off tok today =
      some ⟨tm.year, tm.month, min dn.toNat (daysInMonth tm.year tm.month)⟩ := by
  have hdim := one_le_daysInMonth tm.year tm.month
  rw [parse_reference_point_day_branch, ht, hm]
  dsimp only
  split_ifs
  all_goals
    first
      | rfl
      | (exfalso; omega)
      | (have hmin : min dn.toNat (daysInMonth tm.year tm.month) =
            ((daysInMonth tm.year tm.month : Int)).toNat := by omega
         rw [hmin])
      | (have hmin : min dn.toNat (daysInMonth tm.year tm.month) = dn.toNat := by omega
         rw [hmin])

/-- Witness for C4: requesting day 31 of February 2024 (today = 2024-01-15,
month offset 1) yields 2024-02-29, the leap-year clamp from the spec. -/
theorem specific_day_of_month_clamps_witness :
    parse_reference_point "specific_day_of_month" 1 "31" ⟨2024, 1, 15⟩ =
      some ⟨2024, 2, 29⟩ := by
  rw [specific_day_of_month_clamps ⟨2024, 1, 15⟩ 1 "31" 31 (by decide) (by decide)
    ⟨2024, 2, 1⟩ (by decide)]
  decide

/-- C9: a `specific_day_of_month` query whose day token is not a parseable
integer falls back to returning `today` unchanged (the caught `ValueError`
path), rather than failing. -/
theorem nonnumeric_day_token_falls_back (off : Int) (tok : String) (today : Date)
    (h : pyInt tok = none) :
    parse_reference_point "specific_day_of_month" off tok today = some today := by
  rw [parse_reference_point_day_branch, h]

/-- Witness for C9: the day token "abc" resolves to today itself. -/
theorem nonnumeric_day_token_falls_back_witness :
    parse_reference_point "specific_day_of_month" (-1) "abc" ⟨2025, 7, 19⟩ =
      some ⟨2025, 7, 19⟩ :=
  nonnumeric_day_token_falls_back (-1) "abc" ⟨2025, 7, 19⟩ (by decide)

/-- C5: a date range whose two ends are both `specific_month` with differing
month tokens (both naming valid months) resolves to the first day of the
start month through the last day of the end month, in the years displaced by
the respective offsets. -/
theorem specific_month_range_widens_end (today : Date) (sv ev : Int)
    (su eu : String) (m1 m2 : Nat)
    (h1 : monthNames.lookup (strLower su) = some m1)
    (h2 : monthNames.lookup (strLower eu) = some m2)
    (hne : su ≠ eu)
    (hy1 : 1 ≤ (today.year : Int) + sv) (hy2 : 1 ≤ (today.year : Int) + ev) :
    get_date_range today today "specific_month" sv su "specific_month" ev eu =
      some (⟨((today.year : Int) + sv).toNat, m1, 1⟩,
            ⟨((today.year : Int) + ev).toNat, m2,
              daysInMonth ((today.year : Int) + ev).toNat m2⟩) := by
  simp [get_date_range, parse_reference_point, h1, h2, hne, hy1, hy2]

/-- Witness for C5 at the spec's scenario: today = 2025-07-19, the query
"march to august last year" (both ends `specific_month`, year offset -1)
resolves to 2024-03-01 through 2024-08-31. -/
theorem specific_month_range_widens_end_witness :
    get_date_range ⟨2025, 7, 19⟩ ⟨2025, 7, 19⟩ "specific_month" (-1) "march"
      "specific_month" (-1) "august" = some (⟨2024, 3, 1⟩, ⟨2024, 8, 31⟩) := by
  rw [specific_month_range_widens_end ⟨2025, 7, 19⟩ (-1) (-1) "march" "august" 3 8
    (by decide) (by decide) (by decide) (by decide) (by decide)]
  decide

/-- C10: pairing a recognized reference point with an offset unit that the
reference does not support makes `parse_reference_point` silently ignore the
offset value and return the bare anchor (today, the Monday of the current
week, the first of the current month, or January 1 of the current year), with
no error indication. -/
theorem unsupported_unit_returns_bare_anchor :
    (∀ (v : Int) (u : String) (t : Date),
      u ≠ "days" → u ≠ "weeks" → u ≠ "months" → u ≠ "years" →
      parse_reference_point "today" v u t = some t) ∧
    (∀ (v : Int) (u : String) (t : Date), u ≠ "weeks" →
      parse_reference_point "start_of_week" v u t = addDays t (-(pyWeekday t : Int))) ∧
    (∀ (v : Int) (u : String) (t : Date), u ≠ "months" →
      parse_reference_point "start_of_month" v u t = some { t with day := 1 }) ∧
    (∀ (v : Int) (u : String) (t : Date), u ≠ "years" →
      parse_reference_point "start_of_year" v u t = some { t with month := 1, day := 1 }) := by
  refine ⟨?_, ?_, ?_, ?_⟩
  · intro v u t hd hw hm hy
    simp [parse_reference_point, hd, hw, hm, hy]
  · intro v u t hw
    cases hx : addDays t (-(pyWeekday t : Int)) with
    | none => simp [parse_reference_point, hw, hx]
    | some b => simp [parse_reference_point, hw, hx]
  · intro v u t hm
    simp [parse_reference_point, hm]
  · intro v u t hy
    simp [parse_reference_point, hy]

/-- Witness for C10: unit "this" with reference "today" returns today itself,
and unit "weeks" with reference "start_of_month" returns the first of the
current month, both ignoring the offset value 5. -/
theorem unsupported_unit_returns_bare_anchor_witness :
    parse_reference_point "today" 5 "this" ⟨2025, 7, 19⟩ = some ⟨2025, 7, 19⟩ ∧
    parse_reference_point "start_of_month" 5 "weeks" ⟨2025, 7, 19⟩ = some ⟨2025, 7, 1⟩ := by
  constructor
  · exact unsupported_unit_returns_bare_anchor.1 5 "this" ⟨2025, 7, 19⟩
      (by decide) (by decide) (by decide) (by decide)
  · have h := unsupported_unit_returns_bare_anchor.2.2.1 5 "weeks" ⟨2025, 7, 19⟩ (by decide)
    rw [h]

/-- C7 counterexample: an unknown month name or weekday name passed directly
to the Evaluator is not reported as an error; `parse_reference_point`
substitutes a default silently: "smarch" resolves as if it were the current
month, and "blursday" resolves exactly like "monday". -/
theorem invalid_name_silently_defaults :
    parse_reference_point "specific_month" 0 "smarch" ⟨2025, 7, 19⟩ = some ⟨2025, 7, 1⟩ ∧
    parse_reference_point "specific_weekday" 1 "blursday" ⟨2025, 7, 19⟩ =
      parse_reference_point "specific_weekday" 1 "monday" ⟨2025, 7, 19⟩ := by
  exact ⟨by decide, by decide⟩

/-- C7 amended: `get_month_range` does report a descriptive error for an
unknown month name, but `parse_reference_point` silently substitutes
defaults: an unknown weekday name behaves exactly like "monday", and an
unknown month name resolves to the first of today's own month in the
offset year. -/
theorem invalid_name_behavior :
    (∀ (name : String) (yoff : Int) (t : Date),
      monthNames.lookup (strLower name) = none →
      get_month_range name yoff t = Except.error ("Invalid month name: " ++ name)) ∧
    (∀ (u : String) (v : Int) (t : Date),
      weekdayNames.lookup (strLower u) = none →
      parse_reference_point "specific_weekday" v u t =
        parse_reference_point "specific_weekday" v "monday" t) ∧
    (∀ (u : String) (v : Int) (t : Date),
      monthNames.lookup (strLower u) = none →
      parse_reference_point "specific_month" v u t =
        (if 1 ≤ (t.year : Int) + v then
          some ⟨((t.year : Int) + v).toNat, t.month, 1⟩ else none)) := by
  refine ⟨?_, ?_, ?_⟩
  · intro name yoff t h
    simp [get_month_range, h]
  · intro u v t h
    have hmon : weekdayNames.lookup (strLower "monday") = some 0 := by decide
    simp [parse_reference_point, h, hmon]
  · intro u v t h
    simp [parse_reference_point, h]

/-- Witness for C7's amended claim: "smarch" yields a descriptive error from
`get_month_range`, and the weekday "blursday" resolves like "monday". -/
theorem invalid_name_behavior_witness :
    get_month_range "smarch" 0 ⟨2025, 7, 19⟩ =
      Except.error ("Invalid month name: " ++ "smarch") ∧
    parse_reference_point "specific_weekday" (-1) "blursday" ⟨2025, 7, 19⟩ =
      parse_reference_point "specific_weekday" (-1) "monday" ⟨2025, 7, 19⟩ := by
  exact ⟨invalid_name_behavior.1 "smarch" 0 ⟨2025, 7, 19⟩ (by decide),
    invalid_name_behavior.2.1 "blursday" (-1) ⟨2025, 7, 19⟩ (by decide)⟩

theorem get_date_range_decompose (t1 t2 : Date) (sr : String) (sv : Int)
    (su er : String) (ev : Int) (eu : String) (s e : Date)
    (h : get_date_range t1 t2 sr sv su er ev eu = some (s, e)) :
    parse_reference_point sr sv su t1 = some s ∧
    ∃ ed, parse_reference_point er ev eu t2 = some ed ∧
      widenEnd sr er su eu ed = some e := by
  unfold get_date_range at h
  obtain ⟨sd, hsd, h1⟩ := Option.bind_eq_some.mp h
  obtain ⟨ed, hed, h2⟩ := Option.bind_eq_some.mp h1
  split_ifs at h2 with w1 w2 w3 w4
  · obtain ⟨e1, he1, h3⟩ := Option.bind_eq_some.mp h2
    obtain ⟨e2, he2, h4⟩ := Option.map_eq_some'.mp h3
    simp only [Prod.mk.injEq] at h4
    obtain ⟨rfl, rfl⟩ := h4
    refine ⟨hsd, ed, hed, ?_⟩
    have hgoal : widenEnd sr er su eu ed =
        (addMonths ed 1).bind (fun e1 => addDays e1 (-1)) := by
      simp [widenEnd, w1]
    rw [hgoal, he1]
    simpa using he2
  · obtain ⟨e2, he2, h4⟩ := Option.map_eq_some'.mp h2
    simp only [Prod.mk.injEq] at h4
    obtain ⟨rfl, rfl⟩ := h4
    refine ⟨hsd, ed, hed, ?_⟩
    have hgoal : widenEnd sr er su eu ed = addDays ed 6 := by
      simp [widenEnd, w1, w2]
    rw [hgoal]
    exact he2
  · simp only [Option.some.injEq, Prod.mk.injEq] at h2
    obtain ⟨rfl, rfl⟩ := h2
    refine ⟨hsd, ed, hed, ?_⟩
    simp [widenEnd, w1, w2, w3, w4]
  · simp only [Option.some.injEq, Prod.mk.injEq] at h2
    obtain ⟨rfl, rfl⟩ := h2
    refine ⟨hsd, ed, hed, ?_⟩
    simp [widenEnd, w1, w2, w3, w4]
  · simp only [Option.some.injEq, Prod.mk.injEq] at h2
    obtain ⟨rfl, rfl⟩ := h2
    refine ⟨hsd, ed, hed, ?_⟩
    simp [widenEnd, w1, w2, w3]

/-- C2 amended: each endpoint of a date range observes exactly one captured
"today": the start date is a function of the query arguments and the first
clock reading alone, and the end date of the query arguments and the second
clock reading alone.  (The original claim fails: the two readings are taken
separately, one per `parse_reference_point` call, so a range can observe two
different todays; see the counterexample.) -/
theorem range_endpoints_use_own_clock (sr : String) (sv : Int) (su er : String)
    (ev : Int) (eu : String) (t1 t2 t1' t2' : Date) (s e s' e' : Date)
    (hA : get_date_range t1 t2 sr sv su er ev eu = some (s, e))
    (hB : get_date_range t1' t2' sr sv su er ev eu = some (s', e')) :
    (t1 = t1' → s = s') ∧ (t2 = t2' → e = e') := by
  obtain ⟨hsA, edA, hedA, hwA⟩ := get_date_range_decompose t1 t2 sr sv su er ev eu s e hA
  obtain ⟨hsB, edB, hedB, hwB⟩ := get_date_range_decompose t1' t2' sr sv su er ev eu s' e' hB
  constructor
  · rintro rfl
    rw [hsA] at hsB
    exact Option.some.inj hsB
  · rintro rfl
    rw [hedA] at hedB
    obtain rfl : edA = edB := Option.some.inj hedB
    rw [hwA] at hwB
    exact Option.some.inj hwB

/-- Witness for C2's amended claim, applied at a concrete query ("today",
offset 0, unit "days" on both ends) under clock readings 2025-03-01 and
2025-03-02: with the first readings equal the start dates agree. -/
theorem range_endpoints_use_own_clock_witness :
    (⟨2025, 3, 1⟩ : Date) = ⟨2025, 3, 1⟩ ∧ (⟨2025, 3, 2⟩ : Date) = ⟨2025, 3, 2⟩ := by
  have h := range_endpoints_use_own_clock "today" 0 "days" "today" 0 "days"
    ⟨2025, 3, 1⟩ ⟨2025, 3, 2⟩ ⟨2025, 3, 1⟩ ⟨2025, 3, 2⟩
    ⟨2025, 3, 1⟩ ⟨2025, 3, 2⟩ ⟨2025, 3, 1⟩ ⟨2025, 3, 2⟩ (by decide) (by decide)
  exact ⟨h.1 rfl, h.2 rfl⟩

/-- C2 counterexample: a date-range resolution can observe two different
"today" values.  With the clock advancing from 2025-03-01 to 2025-03-02
between the two `parse_reference_point` calls, the query "today 0 days" to
"today 0 days" returns the pair (2025-03-01, 2025-03-02) — an output that no
single-clock evaluation of the same query can produce. -/
theorem range_observes_two_todays :
    get_date_range ⟨2025, 3, 1⟩ ⟨2025, 3, 2⟩ "today" 0 "days" "today" 0 "days" =
      some (⟨2025, 3, 1⟩, ⟨2025, 3, 2⟩) ∧
    ¬ ∃ t : Date, get_date_range t t "today" 0 "days" "today" 0 "days" =
      some (⟨2025, 3, 1⟩, ⟨2025, 3, 2⟩) := by
  constructor
  · decide
  · rintro ⟨t, ht⟩
    have h1 : parse_reference_point "today" 0 "days" t = some t := rfl
    obtain ⟨hs, ed, hed, hw⟩ := get_date_range_decompose t t "today" 0 "days" "today" 0
      "days" ⟨2025, 3, 1⟩ ⟨2025, 3, 2⟩ ht
    rw [h1] at hs hed
    have h2 : t = ⟨2025, 3, 1⟩ := Option.some.inj hs
    obtain rfl : t = ed := Option.some.inj hed
    rw [h2] at hw
    have : widenEnd "today" "today" "days" "days" ⟨2025, 3, 1⟩ = some ⟨2025, 3, 1⟩ := by
      decide
    rw [this] at hw
    exact absurd (Option.some.inj hw) (by decide)

/-- C8: `parse_time` yields the empty result — `is_range` false, no date, no
date range — exactly when the input text matches no classification tier
(i.e., the time regex finds no match); in particular an unmatched text never
receives a guessed default date or range. -/
theorem unmatched_text_yields_empty_result (q : String) (now : Date) :
    parse_time q now = some ⟨false, none, none⟩ ↔ findTimePattern q.data = none := by
  constructor
  · intro h
    cases hf : findTimePattern q.data with
    | none => rfl
    | some r =>
      obtain ⟨qty, unit⟩ := r
      rw [parse_time, hf] at h
      dsimp only at h
      split_ifs at h
      all_goals
        first
          | (obtain ⟨sd, hsd, heq⟩ := Option.map_eq_some'.mp h
             exact absurd heq (by simp))
          | simp at h
  · intro h
    rw [parse_time, h]

/-- C6 (code bug): the "last N months" time-range path of
`time_parser.parse_time` (also duplicated in `main.search`) computes the
range start as `now - N*30 days`, a 30-days-per-month approximation, not true
calendar-month arithmetic.  At `now` = 2025-03-31 the query "last 1 month"
yields the start date 2025-03-01, while the calendar-month path of
`date_calculator.parse_reference_point` ("today" with unit "months", the
`relativedelta` arithmetic the claim requires everywhere) resolves one month
before 2025-03-31 as 2025-02-28.  The two disagree, refuting "never a
30-days-per-month approximation" for this resolver path. -/
theorem months_use_thirty_day_approximation :
    parse_time "last 1 month" ⟨2025, 3, 31⟩ =
      some ⟨true, none, some (⟨2025, 3, 1⟩, ⟨2025, 3, 31⟩)⟩ ∧
    parse_reference_point "today" (-1) "months" ⟨2025, 3, 31⟩ = some ⟨2025, 2, 28⟩ ∧
    (⟨2025, 3, 1⟩ : Date) ≠ ⟨2025, 2, 28⟩ := by
  exact ⟨by decide, by decide, by decide⟩
